import Mathlib

/-!
# Verification of the account-and-credential authority

Shallow embedding of the account/credential core (users module and
companies module) of the repository, together with theorems settling the
frozen claims about it.

Modelling conventions:
* Machine time is an abstract `Nat` measured in minutes (the only time
  arithmetic in the sources is `moment().add(10, "minutes")` and the
  comparison `moment() < moment(t)`).
* Emails are lists of character codes (`List Nat`); the JavaScript
  `String.prototype.toLowerCase` is modelled per character on the ASCII
  letters, which is all the lowercasing the claims exercise.
* The bcrypt primitives `hash`/`compare` are modelled as an ideal
  collision-free hash: `bcryptHash` is injective by construction and
  `bcryptCompare p h` holds exactly when `h` was produced from `p`.
* The knex connection is a record `DB` of the three tables the claims
  touch; a `select ... where` is a `filter`/`find?`, `.first()`/`.limit(1)`
  followed by `rows[0]` is `find?`, `.update` applies the given field
  changes to every matching row, `.insert` appends a row.
* The external company gateway (`services/companies/apiClient`) is
  modelled as a lookup in `Env.companies`.
-/

deriving instance DecidableEq for Except

namespace Cls

/-- One ASCII character code of `String.prototype.toLowerCase`:
uppercase letters (codes 65-90) are shifted to lowercase, everything else
is unchanged. -/
def lowerCode (n : Nat) : Nat :=
  if 65 ≤ n ∧ n ≤ 90 then n + 32 else n

/-- JavaScript `email.toLowerCase()`: lowercase every character. -/
def toLowerCase (s : List Nat) : List Nat :=
  s.map lowerCode

/-- An opaque bcrypt hash value.  The model records the plaintext the hash
was derived from, which makes the verify primitive exact: the one-way
property of bcrypt is irrelevant to the claims, only the fact that
verification succeeds exactly on the original plaintext. -/
structure Hashed where
  plain : String
deriving DecidableEq, Repr

/-- bcryptjs `hash(plaintext, 10)` (the cost factor does not influence the
functional result). -/
def bcryptHash (p : String) : Hashed := ⟨p⟩

/-- bcryptjs `compare(plaintext, hashValue)`. -/
def bcryptCompare (p : String) (h : Hashed) : Bool :=
  bcryptHash p == h

/-- A company (tenant) record as served by the company gateway. -/
structure Company where
  id : Nat
  company_name : String
  max_active_users : Nat
  end_date : Nat
  notice_date : Nat
deriving DecidableEq, Repr

/-- The value held by the `login_types` column / property.  In the
database the column is either NULL or the `JSON.stringify` serialization
of an array of tags (`ser`); the object returned by
`updateUserLoginTypes` instead carries the raw in-memory array (`arr`). -/
inductive LoginTypesField where
  | jnull : LoginTypesField
  | ser : List String → LoginTypesField
  | arr : List String → LoginTypesField
deriving DecidableEq, Repr

/-- A row of the `users` table. -/
structure UserRow where
  id : Nat
  email : List Nat
  encrypted_password : Option Hashed
  terms_accepted_at : Option Nat
  role : String
  status : String
  company_id : Option Nat
  created_by_id : Option Nat
  notice_email_sent : Bool
  login_types : LoginTypesField
  temp_password : Option Hashed
  temp_password_expire_time : Option Nat
deriving DecidableEq, Repr

/-- The public projection produced by `toUser` (never exposes
`encrypted_password`). -/
structure PubUser where
  id : Nat
  email : List Nat
  termsAcceptedAt : Option Nat
  role : String
  company_id : Option Nat
  status : String
  notice_email_sent : Bool
  login_types : LoginTypesField
deriving DecidableEq, Repr

/-- `toUser`: select the public attributes of a user row. -/
def toUser (row : UserRow) : PubUser :=
  { id := row.id
    email := row.email
    termsAcceptedAt := row.terms_accepted_at
    role := row.role
    company_id := row.company_id
    status := row.status
    notice_email_sent := row.notice_email_sent
    login_types := row.login_types }

/-- A row of the `custom_weights` table. -/
structure WeightRow where
  user_id : Nat
  property_type : String
  safety : Int
  trnsprt : Int
  vitalty : Int
  economc : Int
  sptl_dm : Int
  amenity : Int
deriving DecidableEq, Repr

/-- A row of the `company_partner_permissions` table. -/
structure PermRow where
  company_id : Nat
  partner : String
deriving DecidableEq, Repr

/-- The relational store reached through the knex `connection`. -/
structure DB where
  users : List UserRow
  custom_weights : List WeightRow
  company_partner_permissions : List PermRow
  nextUserId : Nat
deriving DecidableEq, Repr

/-- The ambient environment: the current time and the company records
held by the external gateway. -/
structure Env where
  now : Nat
  companies : List Company
deriving DecidableEq, Repr

/-- `getCompany` (companies module): `isBlank(companyId)` short-circuits
to `null` (here: a `none` id), otherwise the gateway is asked for the
record with that id. -/
def getCompany (env : Env) (companyId : Option Nat) : Option Company :=
  match companyId with
  | none => none
  | some cid => env.companies.find? (fun c => c.id == cid)

/-- Modelled from the spec: `statusActive` lives in `helpers/auth`, which
is not among the sources; §3/§4.1 gate authentication on the account
status being `active`. -/
def statusActive (status : String) : Bool :=
  status == "active"

/-- Modelled from the spec: `companyTermActive` lives in `helpers/auth`,
which is not among the sources; §4.4 defines term validity as the current
time being before the tenant's `end_date`, and §4.1 treats a null tenant
as term-valid. -/
def companyTermActive (env : Env) (company : Option Company) : Bool :=
  match company with
  | none => true
  | some c => env.now < c.end_date

/-- The outcome of a call to `authenticate`: the function can return
`false`, throw an `Error` with a message, or return the public user
projection. -/
inductive AuthResult where
  | retFalse : AuthResult
  | errored : String → AuthResult
  | user : PubUser → AuthResult
deriving DecidableEq, Repr

/-- `authenticate(email, password)` of the users module, paired with the
number of storage (database) reads the call performs.  A falsy password
(the empty string) returns `false` before any query; otherwise one select
by lowercased email runs, then the checks follow in source order:
missing row, status, company term, missing hash, hash mismatch. -/
def authenticate (env : Env) (db : DB) (email : List Nat) (password : String) :
    AuthResult × Nat :=
  if password = "" then
    (.retFalse, 0)
  else
    match db.users.find? (fun u => u.email == toLowerCase email) with
    | none => (.errored "Username cannot be found", 1)
    | some userRow =>
      let company := getCompany env userRow.company_id
      if ¬ statusActive userRow.status then
        (.errored "Your accout has been deactivated", 1)
      else if ¬ companyTermActive env company then
        (.errored "Your company subscription has expired", 1)
      else
        match userRow.encrypted_password with
        | none => (.errored "Invalid password", 1)
        | some encryptedPassword =>
          if bcryptCompare password encryptedPassword then
            (.user (toUser userRow), 1)
          else
            (.errored "Invalid password", 1)

/-- The closed role enumeration of `create`. -/
def roles : List String := ["user", "admin", "superadmin"]

/-- `create(email, password, role, company_id, created_by_id)`: hash the
password when one is given, clamp the role to the closed enumeration,
lowercase the email, insert the row.  The `status` column is not part of
the insert; the row takes the column default `"active"`.  The source
returns a `toUser` projection of the returned columns; the model returns
the new store and the inserted row. -/
def create (db : DB) (email : List Nat) (password : Option String)
    (role : String) (company_id : Option Nat) (created_by_id : Option Nat) :
    DB × UserRow :=
  let encrypted_password := password.map bcryptHash
  let acceptableRole := if role ∈ roles then role else "user"
  let row : UserRow :=
    { id := db.nextUserId
      email := toLowerCase email
      encrypted_password := encrypted_password
      terms_accepted_at := none
      role := acceptableRole
      status := "active"
      company_id := company_id
      created_by_id := created_by_id
      notice_email_sent := false
      login_types := .jnull
      temp_password := none
      temp_password_expire_time := none }
  ({ db with users := db.users ++ [row], nextUserId := db.nextUserId + 1 }, row)

/-- knex `connection("users").where("id", userId).update(...)`: apply the
field changes to every row whose id matches. -/
def updateUsersWhereId (db : DB) (userId : Nat) (f : UserRow → UserRow) : DB :=
  { db with users := db.users.map (fun u => if u.id == userId then f u else u) }

/-- `getUserLoginTypes(user)`: `[]` for a missing user or a NULL column;
otherwise `asArray(JSON.parse(user.login_types))`.  For a serialized
column (`ser l`, written by `JSON.stringify(l)`) the parse round-trips to
`l`.  When the property instead holds a raw in-memory array (`arr l`, the
shape returned by `updateUserLoginTypes`), `JSON.parse` coerces the array
to the comma-joined string `l.toString()`, which is not valid JSON for
plain alphabetic tags such as "password" or "sso", so the call throws a
SyntaxError; the model surfaces that as `Except.error`. -/
def getUserLoginTypes (user : Option UserRow) : Except String (List String) :=
  match user with
  | none => .ok []
  | some u =>
    match u.login_types with
    | .jnull => .ok []
    | .ser l => .ok l
    | .arr _ => .error "SyntaxError: Unexpected token in JSON"

/-- `updateUserLoginTypes(user, loginType)`: read the provenance list from
the passed user object; if the tag is absent, append it, persist the
serialized list for the user's row, and return the user object with the
raw in-memory array spread over `login_types`; if the tag is present,
return the user unchanged with no write.  Returns the new store together
with the returned user object. -/
def updateUserLoginTypes (db : DB) (user : UserRow) (loginType : String) :
    Except String (DB × UserRow) :=
  match getUserLoginTypes (some user) with
  | .error e => .error e
  | .ok loginTypes =>
    if loginType ∉ loginTypes then
      let newTypes := loginTypes ++ [loginType]
      let db' := updateUsersWhereId db user.id
        (fun u => { u with login_types := .ser newTypes })
      .ok (db', { user with login_types := .arr newTypes })
    else
      .ok (db, user)

/-- `setTemporaryPassword(userId, tempPassword)`: hash the plaintext and
overwrite both temporary-credential fields on the matching row, the
expiry being `moment().add(10, "minutes")` (time is measured in
minutes). -/
def setTemporaryPassword (now : Nat) (db : DB) (userId : Nat)
    (tempPassword : String) : DB :=
  let hashedTempPassword := bcryptHash tempPassword
  updateUsersWhereId db userId (fun u =>
    { u with
      temp_password := some hashedTempPassword
      temp_password_expire_time := some (now + 10) })

/-- `checkTemporaryPassword(userId, tempPassword)`: select the two
temporary-credential columns of the row with the given id with `.first()`
and destructure the result.  When no row matches, `.first()` yields
`undefined` and the destructuring throws a TypeError (`Except.error`).
Otherwise: `false` when either column is NULL, else the bcrypt
comparison conjoined with `moment() < moment(expireTime)` (strict). -/
def checkTemporaryPassword (now : Nat) (db : DB) (userId : Nat)
    (tempPassword : String) : Except String Bool :=
  match db.users.find? (fun u => u.id == userId) with
  | none =>
    .error "TypeError: cannot destructure property of undefined"
  | some row =>
    match row.temp_password, row.temp_password_expire_time with
    | none, _ => .ok false
    | _, none => .ok false
    | some hashedTempPassword, some expireTime =>
      .ok (bcryptCompare tempPassword hashedTempPassword && decide (now < expireTime))

/-- `changePassword(userId, newPassword)`: hash the new plaintext and
overwrite only the `encrypted_password` column of the matching row. -/
def changePassword (db : DB) (userId : Nat) (newPassword : String) : DB :=
  let newHashedPassword := bcryptHash newPassword
  updateUsersWhereId db userId
    (fun u => { u with encrypted_password := some newHashedPassword })

/-- The matching predicate of the `custom_weights` queries:
`where (user_id, property_type)`. -/
def weightKeyMatches (user_id : Nat) (property_type : String)
    (r : WeightRow) : Bool :=
  r.user_id == user_id && r.property_type == property_type

/-- `setUsersCustomWeights(user_id, property_type, ...)` exactly as the
source has it: read the first row matching the (user id, property type)
key; if one EXISTS, run the `insert` branch appending a brand-new row;
if NONE exists, run the `update` branch, whose `where` clause then
matches no row.  (The source's return value — the raw insert result or
the updated rows — is not consulted by any claim and is not modelled.) -/
def setUsersCustomWeights (db : DB) (user_id : Nat) (property_type : String)
    (safety trnsprt vitalty economc sptl_dm amenity : Int) : DB :=
  let matchingEntry :=
    db.custom_weights.find? (weightKeyMatches user_id property_type)
  match matchingEntry with
  | some _ =>
    { db with
      custom_weights := db.custom_weights ++
        [{ user_id := user_id
           property_type := property_type
           safety := safety
           trnsprt := trnsprt
           vitalty := vitalty
           economc := economc
           sptl_dm := sptl_dm
           amenity := amenity }] }
  | none =>
    { db with
      custom_weights := db.custom_weights.map (fun r =>
        if weightKeyMatches user_id property_type r then
          { r with
            safety := safety
            trnsprt := trnsprt
            vitalty := vitalty
            economc := economc
            sptl_dm := sptl_dm
            amenity := amenity }
        else r) }

/-- The fixed platform-default partner list of the companies module. -/
def DEFAULT_COMPANY_PARTNER_PERMISSIONS : List String :=
  ["cls", "cmbs", "cmm", "compstak", "val", "reis", "infabode",
   "commercialex", "enricheddata", "retailmarketpoint", "databuffet",
   "fourtwentyseven"]

/-- `getCompanyPartnerPermissions(companyId)`: all permission rows of the
company; the default list when there are none, otherwise exactly the
rows' `partner` tags. -/
def getCompanyPartnerPermissions (db : DB) (companyId : Nat) : List String :=
  let permissions :=
    db.company_partner_permissions.filter (fun p => p.company_id == companyId)
  if permissions.length = 0 then
    DEFAULT_COMPANY_PARTNER_PERMISSIONS
  else
    permissions.map (fun permission => permission.partner)

/-! ## General lemmas about the model -/

/-- Lowercasing a character code is idempotent. -/
theorem lowerCode_idem (n : Nat) : lowerCode (lowerCode n) = lowerCode n := by
  unfold lowerCode
  by_cases h : 65 ≤ n ∧ n ≤ 90
  · simp only [if_pos h]
    rw [if_neg (by omega)]
  · simp only [if_neg h]

/-- Lowercasing an email is idempotent. -/
theorem toLowerCase_idem (s : List Nat) : toLowerCase (toLowerCase s) = toLowerCase s := by
  induction s with
  | nil => rfl
  | cons a t _ => simp [toLowerCase, lowerCode_idem]

/-- Verifying a plaintext against a freshly computed hash succeeds exactly
on the original plaintext. -/
theorem bcryptCompare_bcryptHash (q p : String) :
    bcryptCompare q (bcryptHash p) = decide (q = p) := by
  by_cases h : q = p <;> simp [bcryptCompare, bcryptHash, h]

/-- Searching by id through a row-wise transformation that preserves ids
finds the transformed version of the row the search found before. -/
theorem find?_id_map (l : List UserRow) (vid : Nat) (g : UserRow → UserRow)
    (hg : ∀ u, (g u).id = u.id) :
    (l.map g).find? (fun u => u.id == vid) = (l.find? (fun u => u.id == vid)).map g := by
  induction l with
  | nil => rfl
  | cons a t ih =>
    by_cases h : a.id = vid
    · simp [List.find?_cons, hg, h]
    · simp [List.find?_cons, hg, h, ih]

/-- A `where(id).update` run on a store in which the id search finds a
row makes the id search find the transformed version of that row. -/
theorem updateUsersWhereId_find?_self (db : DB) (uid : Nat) (f : UserRow → UserRow)
    (hf : ∀ v, (f v).id = v.id) (u : UserRow)
    (hfind : db.users.find? (fun v => v.id == uid) = some u) :
    (updateUsersWhereId db uid f).users.find? (fun v => v.id == uid) = some (f u) := by
  have hg : ∀ v : UserRow, ((if v.id == uid then f v else v) : UserRow).id = v.id := by
    intro v
    by_cases h : (v.id == uid) = true <;> simp [h, hf]
  have hu : u.id = uid := by simpa using List.find?_some hfind
  simp only [updateUsersWhereId]
  rw [find?_id_map db.users uid _ hg, hfind]
  simp [hu]

/-- Mapping a projection that the row transformation leaves unchanged
across a `where(id).update` yields the same values as before. -/
theorem map_field_map_ite {α} (l : List UserRow) (uid : Nat) (f : UserRow → UserRow)
    (fld : UserRow → α) (hf : ∀ v, fld (f v) = fld v) :
    (l.map (fun u => if u.id == uid then f u else u)).map fld = l.map fld := by
  induction l with
  | nil => rfl
  | cons a t ih =>
    by_cases h : (a.id == uid) = true
    · simp only [List.map_cons, if_pos h, hf, ih]
    · simp only [List.map_cons, if_neg h, ih]

/-! ## Concrete fixtures used by witnesses and counterexamples -/

/-- The character codes of the (already lowercase) email "alice". -/
def aliceEmail : List Nat := [97, 108, 105, 99, 101]

/-- The character codes of the (already lowercase) email "bob". -/
def bobEmail : List Nat := [98, 111, 98]

/-- An active user with a stored credential, belonging to company 7. -/
def baseUser : UserRow :=
  { id := 1
    email := aliceEmail
    encrypted_password := some (bcryptHash "pw")
    terms_accepted_at := none
    role := "user"
    status := "active"
    company_id := some 7
    created_by_id := none
    notice_email_sent := false
    login_types := .jnull
    temp_password := none
    temp_password_expire_time := none }

/-- A deactivated user with a stored credential, same company. -/
def inactiveUser : UserRow :=
  { baseUser with id := 2, email := bobEmail, status := "inactive" }

/-- A company whose term window ended at time 100. -/
def expiredCompany : Company :=
  { id := 7
    company_name := "acme"
    max_active_users := 5
    end_date := 100
    notice_date := 90 }

/-- An environment observed at time 200, past the company's end date. -/
def env0 : Env := { now := 200, companies := [expiredCompany] }

/-- The empty store. -/
def db_empty : DB :=
  { users := [], custom_weights := [], company_partner_permissions := [], nextUserId := 1 }

/-- A store holding just the active user. -/
def db0 : DB := { db_empty with users := [baseUser] }

/-- A store holding the deactivated user and the active user. -/
def db3 : DB := { db_empty with users := [inactiveUser, baseUser] }

/-- A store with one custom partner-permission row for company 5. -/
def dbPerm : DB :=
  { db_empty with company_partner_permissions := [{ company_id := 5, partner := "custompartner" }] }

/-- A pre-existing weighting profile for (user 1, "retail"). -/
def wrow : WeightRow :=
  { user_id := 1, property_type := "retail"
    safety := 1, trnsprt := 1, vitalty := 1, economc := 1, sptl_dm := 1, amenity := 1 }

/-- A store holding the pre-existing weighting profile. -/
def dbWeights : DB := { db_empty with custom_weights := [wrow] }

/-! ## The claims -/

/-- C1: the custom-weighting upsert is expected to create the profile row
when the (user id, property-type) key is absent and overwrite it in place
when present, leaving exactly one row per key.  The source has the two
branches swapped: evaluating it on an empty table leaves zero rows for
the key, and evaluating it on a table already holding the key's row
leaves two rows for the key. -/
theorem c1_upsert_branches_swapped :
    ((setUsersCustomWeights db_empty 1 "retail" 9 9 9 9 9 9).custom_weights.filter
        (weightKeyMatches 1 "retail")).length = 0 ∧
    ((setUsersCustomWeights dbWeights 1 "retail" 9 9 9 9 9 9).custom_weights.filter
        (weightKeyMatches 1 "retail")).length = 2 := by
  decide

/-- C2 counterexample: with an empty secret, `authenticate` returns the
bare value `false`; it does not fail with the thrown invalid-credential
error that hash mismatch and missing hash produce. -/
theorem c2_counterexample_returns_false_not_error :
    (authenticate env0 db0 aliceEmail "").1 = .retFalse ∧
    ¬ (authenticate env0 db0 aliceEmail "").1 = .errored "Invalid password" := by
  decide

/-- C2 (amended): for every environment, store and email, `authenticate`
with an empty secret fails immediately by returning `false` — not by
raising the invalid-credential error — and performs zero storage reads. -/
theorem c2_empty_secret_fails_without_read (env : Env) (db : DB) (email : List Nat) :
    authenticate env db email "" = (.retFalse, 0) := by
  simp [authenticate]

/-- C3: `authenticate` checks account existence, then status, then
tenant-term validity, then the credential.  For any stored account whose
status is not active the call fails with the deactivation error whatever
the tenant term and the secret are; for any stored active account whose
resolved tenant's term is no longer active the call fails with the
expired-subscription error whatever the secret and the stored hash
are. -/
theorem c3_failure_order (env : Env) (db : DB) (email : List Nat)
    (password : String) (u : UserRow)
    (hp : password ≠ "")
    (hfind : db.users.find? (fun v => v.email == toLowerCase email) = some u) :
    (statusActive u.status = false →
      authenticate env db email password =
        (.errored "Your accout has been deactivated", 1)) ∧
    (statusActive u.status = true →
      companyTermActive env (getCompany env u.company_id) = false →
      authenticate env db email password =
        (.errored "Your company subscription has expired", 1)) := by
  constructor
  · intro hstat
    simp [authenticate, hp, hfind, hstat]
  · intro hstat hterm
    simp [authenticate, hp, hfind, hstat, hterm]

/-- C3 witness: the deactivated user fails with the deactivation error
even though the company term is expired and the secret is correct, and
the active user under the expired company fails with the
expired-subscription error even though the secret is correct. -/
theorem c3_witness :
    authenticate env0 db3 bobEmail "pw" =
      (.errored "Your accout has been deactivated", 1) ∧
    authenticate env0 db3 aliceEmail "pw" =
      (.errored "Your company subscription has expired", 1) :=
  ⟨(c3_failure_order env0 db3 bobEmail "pw" inactiveUser (by decide) (by decide)).1
      (by decide),
   (c3_failure_order env0 db3 aliceEmail "pw" baseUser (by decide) (by decide)).2
      (by decide) (by decide)⟩

/-- C4: issuing a temporary credential stores its hash with expiry
now + 10 minutes, overwriting whatever temporary credential the row held
before, and verifying afterwards returns true exactly when the supplied
plaintext is the issued one and the checking time is strictly before the
expiry — false on mismatch, false once the expiry is reached. -/
theorem c4_temp_credential_roundtrip (now0 now1 : Nat) (db : DB) (uid : Nat)
    (p q : String) (u : UserRow)
    (hfind : db.users.find? (fun v => v.id == uid) = some u) :
    ((setTemporaryPassword now0 db uid p).users.find? (fun v => v.id == uid) =
      some { u with temp_password := some (bcryptHash p),
                    temp_password_expire_time := some (now0 + 10) }) ∧
    checkTemporaryPassword now1 (setTemporaryPassword now0 db uid p) uid q =
      .ok (decide (q = p) && decide (now1 < now0 + 10)) := by
  have hfind' : (setTemporaryPassword now0 db uid p).users.find? (fun v => v.id == uid) =
      some { u with temp_password := some (bcryptHash p),
                    temp_password_expire_time := some (now0 + 10) } :=
    updateUsersWhereId_find?_self db uid
      (fun w => { w with temp_password := some (bcryptHash p),
                         temp_password_expire_time := some (now0 + 10) })
      (fun _ => rfl) u hfind
  refine ⟨hfind', ?_⟩
  unfold checkTemporaryPassword
  rw [hfind']
  simp [bcryptCompare_bcryptHash]

/-- C4 witness: round-trip at concrete times — issue at time 0, verify
the right plaintext at time 5 (true), a wrong plaintext at time 5
(false), and the right plaintext at time 10, exactly the expiry
(false). -/
theorem c4_witness :
    checkTemporaryPassword 5 (setTemporaryPassword 0 db0 1 "abc123") 1 "abc123" = .ok true ∧
    checkTemporaryPassword 5 (setTemporaryPassword 0 db0 1 "abc123") 1 "wrong" = .ok false ∧
    checkTemporaryPassword 10 (setTemporaryPassword 0 db0 1 "abc123") 1 "abc123" = .ok false :=
  ⟨((c4_temp_credential_roundtrip 0 5 db0 1 "abc123" "abc123" baseUser (by decide)).2).trans
      (by decide),
   ((c4_temp_credential_roundtrip 0 5 db0 1 "abc123" "wrong" baseUser (by decide)).2).trans
      (by decide),
   ((c4_temp_credential_roundtrip 0 10 db0 1 "abc123" "abc123" baseUser (by decide)).2).trans
      (by decide)⟩

/-- C5 counterexample: for an id with no stored record at all,
`checkTemporaryPassword` does not return false — destructuring the
missing row raises an error. -/
theorem c5_counterexample_missing_record_errors :
    checkTemporaryPassword 0 db_empty 1 "x" =
      .error "TypeError: cannot destructure property of undefined" ∧
    ¬ checkTemporaryPassword 0 db_empty 1 "x" = .ok false := by
  decide

/-- C5 (amended): for every account id whose row exists,
`checkTemporaryPassword` returns false — not an error — whenever the
stored temporary hash or the stored expiry timestamp (or both) is
absent; for an id with no record it instead raises an error. -/
theorem c5_missing_fields_return_false (now : Nat) (db : DB) (uid : Nat)
    (q : String) (u : UserRow)
    (hfind : db.users.find? (fun v => v.id == uid) = some u)
    (hmiss : u.temp_password = none ∨ u.temp_password_expire_time = none) :
    checkTemporaryPassword now db uid q = .ok false := by
  unfold checkTemporaryPassword
  rw [hfind]
  rcases hmiss with h | h
  · simp [h]
  · rcases htp : u.temp_password with _ | hp <;> simp [h, htp]

/-- C5 witness: the stored active user has no temporary credential, and
verification returns false for them. -/
theorem c5_witness : checkTemporaryPassword 0 db0 1 "x" = .ok false :=
  c5_missing_fields_return_false 0 db0 1 "x" baseUser (by decide) (.inl (by decide))

/-- C6: with zero permission rows for the tenant the resolver returns the
fixed 12-entry platform default list (containing "cls", "cmbs" and
"fourtwentyseven"); with at least one row it returns exactly those rows'
partner tags, merging in no default entry. -/
theorem c6_partner_permissions (db : DB) (cid : Nat) :
    (db.company_partner_permissions.filter (fun p => p.company_id == cid) = [] →
      getCompanyPartnerPermissions db cid = DEFAULT_COMPANY_PARTNER_PERMISSIONS ∧
      (getCompanyPartnerPermissions db cid).length = 12 ∧
      "cls" ∈ getCompanyPartnerPermissions db cid ∧
      "cmbs" ∈ getCompanyPartnerPermissions db cid ∧
      "fourtwentyseven" ∈ getCompanyPartnerPermissions db cid) ∧
    (db.company_partner_permissions.filter (fun p => p.company_id == cid) ≠ [] →
      getCompanyPartnerPermissions db cid =
        (db.company_partner_permissions.filter (fun p => p.company_id == cid)).map
          (fun p => p.partner)) := by
  constructor
  · intro h
    have hres : getCompanyPartnerPermissions db cid = DEFAULT_COMPANY_PARTNER_PERMISSIONS := by
      simp [getCompanyPartnerPermissions, h]
    refine ⟨hres, ?_, ?_, ?_, ?_⟩ <;> rw [hres] <;> decide
  · intro h
    have h0 : ¬ (db.company_partner_permissions.filter
        (fun p => p.company_id == cid)).length = 0 := by
      simpa [List.length_eq_zero] using h
    simp [getCompanyPartnerPermissions, h0]

/-- C6 witness: the empty store yields the default list for company 5;
the store with one custom row for company 5 yields exactly that row's
tag. -/
theorem c6_witness :
    getCompanyPartnerPermissions db_empty 5 = DEFAULT_COMPANY_PARTNER_PERMISSIONS ∧
    getCompanyPartnerPermissions dbPerm 5 = ["custompartner"] :=
  ⟨((c6_partner_permissions db_empty 5).1 (by decide)).1,
   ((c6_partner_permissions dbPerm 5).2 (by decide)).trans (by decide)⟩

/-- C7: `changePassword` overwrites only the primary credential hash.
Row for row the store keeps every other field — id, email, terms, role,
status, company association, creator, notice flag, login provenance and
both temporary-credential fields — the other tables are untouched,
temporary-credential verification is unaffected for every account and
every time, and the targeted row's hash becomes the hash of the new
plaintext. -/
theorem c7_changePassword_frame (db : DB) (uid : Nat) (p : String) :
    (changePassword db uid p).custom_weights = db.custom_weights ∧
    (changePassword db uid p).company_partner_permissions =
      db.company_partner_permissions ∧
    (changePassword db uid p).users.map UserRow.id = db.users.map UserRow.id ∧
    (changePassword db uid p).users.map UserRow.email = db.users.map UserRow.email ∧
    (changePassword db uid p).users.map UserRow.terms_accepted_at =
      db.users.map UserRow.terms_accepted_at ∧
    (changePassword db uid p).users.map UserRow.role = db.users.map UserRow.role ∧
    (changePassword db uid p).users.map UserRow.status = db.users.map UserRow.status ∧
    (changePassword db uid p).users.map UserRow.company_id =
      db.users.map UserRow.company_id ∧
    (changePassword db uid p).users.map UserRow.created_by_id =
      db.users.map UserRow.created_by_id ∧
    (changePassword db uid p).users.map UserRow.notice_email_sent =
      db.users.map UserRow.notice_email_sent ∧
    (changePassword db uid p).users.map UserRow.login_types =
      db.users.map UserRow.login_types ∧
    (changePassword db uid p).users.map UserRow.temp_password =
      db.users.map UserRow.temp_password ∧
    (changePassword db uid p).users.map UserRow.temp_password_expire_time =
      db.users.map UserRow.temp_password_expire_time ∧
    (∀ now vid q, checkTemporaryPassword now (changePassword db uid p) vid q =
      checkTemporaryPassword now db vid q) ∧
    (∀ u, db.users.find? (fun v => v.id == uid) = some u →
      (changePassword db uid p).users.find? (fun v => v.id == uid) =
        some { u with encrypted_password := some (bcryptHash p) }) := by
  have hg : ∀ v : UserRow,
      ((if v.id == uid then
        { v with encrypted_password := some (bcryptHash p) } else v) : UserRow).id = v.id := by
    intro v
    by_cases h : (v.id == uid) = true <;> simp [h]
  refine ⟨rfl, rfl, ?_, ?_, ?_, ?_, ?_, ?_, ?_, ?_, ?_, ?_, ?_, ?_, ?_⟩
  · exact map_field_map_ite db.users uid _ UserRow.id (fun _ => rfl)
  · exact map_field_map_ite db.users uid _ UserRow.email (fun _ => rfl)
  · exact map_field_map_ite db.users uid _ UserRow.terms_accepted_at (fun _ => rfl)
  · exact map_field_map_ite db.users uid _ UserRow.role (fun _ => rfl)
  · exact map_field_map_ite db.users uid _ UserRow.status (fun _ => rfl)
  · exact map_field_map_ite db.users uid _ UserRow.company_id (fun _ => rfl)
  · exact map_field_map_ite db.users uid _ UserRow.created_by_id (fun _ => rfl)
  · exact map_field_map_ite db.users uid _ UserRow.notice_email_sent (fun _ => rfl)
  · exact map_field_map_ite db.users uid _ UserRow.login_types (fun _ => rfl)
  · exact map_field_map_ite db.users uid _ UserRow.temp_password (fun _ => rfl)
  · exact map_field_map_ite db.users uid _ UserRow.temp_password_expire_time (fun _ => rfl)
  · intro now vid q
    unfold checkTemporaryPassword
    have hfind : (changePassword db uid p).users.find? (fun v => v.id == vid) =
        (db.users.find? (fun v => v.id == vid)).map
          (fun v => if v.id == uid then
            { v with encrypted_password := some (bcryptHash p) } else v) := by
      simp only [changePassword, updateUsersWhereId]
      exact find?_id_map db.users vid _ hg
    rw [hfind]
    cases db.users.find? (fun v => v.id == vid) with
    | none => rfl
    | some u =>
      by_cases h : u.id = uid <;> simp [h]
  · intro u hu
    exact updateUsersWhereId_find?_self db uid
      (fun w => { w with encrypted_password := some (bcryptHash p) })
      (fun _ => rfl) u hu

/-- C7 witness: changing the stored user's password leaves their
temporary-credential check unchanged and stores exactly the new hash. -/
theorem c7_witness :
    checkTemporaryPassword 0 (changePassword db0 1 "new") 1 "x" =
      checkTemporaryPassword 0 db0 1 "x" ∧
    (changePassword db0 1 "new").users.find? (fun v => v.id == 1) =
      some { baseUser with encrypted_password := some (bcryptHash "new") } := by
  obtain ⟨-, -, -, -, -, -, -, -, -, -, -, -, -, hinv, hupd⟩ :=
    c7_changePassword_frame db0 1 "new"
  exact ⟨hinv 0 1 "x", hupd baseUser (by decide)⟩

/-- C8: evaluated at the failing input — an account with no recorded
provenance and the tag "password" — the first call persists the
serialized list and returns the account carrying the raw in-memory
array, and the second call, applied to that returned account as §4.1
requires, raises a JSON parse error instead of returning the account
unchanged with the tag present exactly once. -/
theorem c8_chained_second_call_errors :
    (updateUserLoginTypes db0 baseUser "password").toOption.map
        (fun r => (r.2.login_types, r.1.users.map UserRow.login_types)) =
      some (.arr ["password"], [.ser ["password"]]) ∧
    (updateUserLoginTypes db0 baseUser "password").bind
        (fun r => updateUserLoginTypes r.1 r.2 "password") =
      .error "SyntaxError: Unexpected token in JSON" := by
  decide

/-- C9: the role stored by `create` always lies in the closed enumeration
(user, admin, superadmin); a recognized role is stored as given and an
unrecognized one is silently downgraded to "user"; the row is appended to
the users table. -/
theorem c9_role_clamped (db : DB) (email : List Nat) (password : Option String)
    (role : String) (cid cby : Option Nat) :
    (create db email password role cid cby).2.role ∈ roles ∧
    (role ∈ roles → (create db email password role cid cby).2.role = role) ∧
    (role ∉ roles → (create db email password role cid cby).2.role = "user") ∧
    (create db email password role cid cby).1.users =
      db.users ++ [(create db email password role cid cby).2] := by
  by_cases h : role ∈ roles
  · have hrole : (create db email password role cid cby).2.role = role := by
      simp only [create]
      rw [if_pos h]
    exact ⟨by rw [hrole]; exact h, fun _ => hrole, fun hn => absurd h hn, rfl⟩
  · have hrole : (create db email password role cid cby).2.role = "user" := by
      simp only [create]
      rw [if_neg h]
    refine ⟨by rw [hrole]; decide, fun hy => absurd hy h, fun _ => hrole, rfl⟩

/-- C9 witness: creating with the unrecognized role "hacker" stores
"user"; creating with the recognized role "admin" stores "admin". -/
theorem c9_witness :
    (create db_empty aliceEmail (some "pw") "hacker" none none).2.role = "user" ∧
    (create db_empty aliceEmail (some "pw") "admin" none none).2.role = "admin" :=
  ⟨(c9_role_clamped db_empty aliceEmail (some "pw") "hacker" none none).2.2.1 (by decide),
   (c9_role_clamped db_empty aliceEmail (some "pw") "admin" none none).2.1 (by decide)⟩

/-- C10: `authenticate` on any case variant of an email behaves
identically — same result or same error, and the same number of storage
reads — to `authenticate` on its lowercase form, and `create` stores the
email lowercased. -/
theorem c10_email_case_normalized (env : Env) (db : DB) (e : List Nat) (p : String)
    (password : Option String) (role : String) (cid cby : Option Nat) :
    authenticate env db e p = authenticate env db (toLowerCase e) p ∧
    (create db e password role cid cby).2.email = toLowerCase e := by
  constructor
  · simp only [authenticate, toLowerCase_idem]
  · rfl

end Cls
